import Mathlib

/-!
# Verification of the seiri extraction/graph-assembly core

Shallow embedding of the seiri core in Lean 4:

* the normalized record model (`seiri/parsers/utils/datatypes.py`),
* the graph builder (`seiri/core/graph_builder.py`),
* the structured Python extractor (`seiri/parsers/python.py`),
* the pattern-based Rust extractor (`seiri/parsers/rust.py`),
* the parser registry (`seiri/parsers/utils/registry.py`).

Python is dynamically typed; where a runtime type test matters (the
`isinstance(target, ImportNode)` check in `_find_external_dependencies`)
edge targets are embedded as a `PyVal` sum so the test can be expressed
faithfully.  File paths are embedded as strings (`str(path)` is the node
id in the source).
-/

namespace Seiri

/-! ## Normalized record model (datatypes.py) -/

/-- `ImportNode` dataclass: one record per imported name.  The source
field `alias` is spelled `asname` here (`alias` is a Lean command name);
it holds the `as` name of the import clause. -/
structure ImportNode where
  name : String
  module : Option String
  asname : Option String
  level : Nat
deriving DecidableEq

/-- `FunctionNode` dataclass. -/
structure FunctionNode where
  name : String
  args : List String
  decorators : List String
  is_async : Bool
deriving DecidableEq

/-- `FunctionRefNode` dataclass: `object` is the receiver expression text. -/
structure FunctionRefNode where
  name : String
  object : Option String
deriving DecidableEq

/-- `ContainerNode` dataclass. -/
structure ContainerNode where
  name : String
  bases : List String
  container_vars : List String
deriving DecidableEq

/-- `ContainerRefNode` dataclass. -/
structure ContainerRefNode where
  name : String
  object : Option String
  method : Option String
deriving DecidableEq

/-- `ParsedFile` dataclass; the five sequences default to empty lists
(`field(default_factory=list)`), so `ParsedFile("error", path)` is the
sentinel with all five sequences empty. -/
structure ParsedFile where
  language : String
  path : String
  imports : List ImportNode := []
  functions : List FunctionNode := []
  function_refs : List FunctionRefNode := []
  containers : List ContainerNode := []
  container_refs : List ContainerRefNode := []
deriving DecidableEq

/-! ## Graph builder (seiri/core/graph_builder.py) -/

/-- A Python runtime value stored in an edge dict's `"target"` slot.  The
builder writes `imp.module` or `call.object` there (a `str` or `None`);
`_find_external_dependencies` then tests `isinstance(target, ImportNode)`,
so the embedded value type must be able to distinguish the three cases. -/
inductive PyVal where
  | nil : PyVal
  | str : String → PyVal
  | importNodeV : ImportNode → PyVal
deriving DecidableEq

/-- Coerce an `Optional[str]` field into the dynamically typed target slot. -/
def PyVal.ofOpt : Option String → PyVal
  | Option.none => PyVal.nil
  | Option.some s => PyVal.str s

/-- A node dict produced by `build_graph`.  File nodes carry a `"language"`
key; external nodes do not, embedded as `language = none`. -/
structure GraphNode where
  id : String
  type : String
  language : Option String
  name : String
  metadata : List (String × Nat)
deriving DecidableEq

/-- An edge dict produced by `build_graph`. -/
structure GraphEdge where
  source : String
  target : PyVal
  type : String
  weight : Nat
deriving DecidableEq

/-- The `"metadata"` dict of the graph. -/
structure GraphMeta where
  total_files : Nat
  languages : List String
deriving DecidableEq

/-- The dict returned by `GraphBuilder.build_graph`. -/
structure Graph where
  nodes : List GraphNode
  edges : List GraphEdge
  metadata : GraphMeta
deriving DecidableEq

/-- `Path.name`: the final component of a path string. -/
def pathName (p : String) : String :=
  (p.splitOn "/").getLastD p

/-- `GraphBuilder._extract_metadata`: the five per-file counts, in the
dict-literal order of the source. -/
def extract_metadata (d : ParsedFile) : List (String × Nat) :=
  [("import_count", d.imports.length),
   ("function_count", d.functions.length),
   ("function_ref_count", d.function_refs.length),
   ("container_count", d.containers.length),
   ("container_ref_count", d.container_refs.length)]

/-- The file node appended for one `ParsedFile` in the first loop of
`build_graph`. -/
def fileNodeOf (pf : ParsedFile) : GraphNode :=
  { id := pf.path
    type := "file"
    language := Option.some pf.language
    name := pathName pf.path
    metadata := extract_metadata pf }

/-- The edges appended for one `ParsedFile` in the second loop of
`build_graph`: one `"import"` edge per `ImportNode` with target
`imp.module`, then one `"call"` edge per `FunctionRefNode` with target
`call.object`.  The guards `if imp:` / `if call:` in the source test the
truthiness of a dataclass instance, which is always true, so they filter
nothing. -/
def edgesOf (pf : ParsedFile) : List GraphEdge :=
  pf.imports.map (fun imp =>
    { source := pf.path, target := PyVal.ofOpt imp.module
      type := "import", weight := 1 })
  ++ pf.function_refs.map (fun call =>
    { source := pf.path, target := PyVal.ofOpt call.object
      type := "call", weight := 1 })

/-- `GraphBuilder._find_external_dependencies`: collects `target.module`
for every edge whose target is an `ImportNode` instance and whose module is
set and not an internal file path.  The set insertion is embedded as an
append guarded by membership (the enumeration order of the Python set is
not a contract). -/
def find_external_dependencies (rs : List ParsedFile) (es : List GraphEdge) :
    List String :=
  let internal : List String := rs.map (fun f => f.path)
  es.foldl (fun acc e =>
    match e.target with
    | PyVal.importNodeV t =>
      match t.module with
      | Option.some m =>
        if m ∈ internal then acc else if m ∈ acc then acc else acc ++ [m]
      | Option.none => acc
    | _ => acc) []

/-- The external node appended for one collected dependency id: the dict
literal has no `"language"` key and an empty metadata dict. -/
def externalNodeOf (dep : String) : GraphNode :=
  { id := dep, type := "external", language := Option.none
    name := dep, metadata := [] }

/-- `GraphBuilder.build_graph`: file nodes in input order, then all edges
in input order, then external nodes from `_find_external_dependencies`,
then the metadata dict.  `list(set(...))` for languages is embedded as
`dedup` (a duplicate-free list; set order is not a contract). -/
def build_graph (rs : List ParsedFile) : Graph :=
  let nodes := rs.map fileNodeOf
  let edges := rs.flatMap edgesOf
  let ext := find_external_dependencies rs edges
  { nodes := nodes ++ ext.map externalNodeOf
    edges := edges
    metadata :=
      { total_files := rs.length
        languages := (rs.map (fun r => r.language)).dedup } }

/-! ## Python AST fragment (the node shapes `seiri/parsers/python.py`
discriminates on).  `constant` stands for any other expression form and
carries its `ast.unparse` rendering. -/

inductive PyExpr where
  | name : String → PyExpr
  | attr : PyExpr → String → PyExpr
  | call : PyExpr → List PyExpr → PyExpr
  | constant : String → PyExpr

inductive PyStmt where
  | importStmt : List (String × Option String) → PyStmt
  | importFrom : Option String → List (String × Option String) → Nat → PyStmt
  | functionDef : String → List String → List PyExpr → List PyStmt → PyStmt
  | asyncFunctionDef : String → List String → List PyExpr → List PyStmt → PyStmt
  | classDef : String → List PyExpr → List PyStmt → PyStmt
  | exprStmt : PyExpr → PyStmt
  | assign : List PyExpr → PyExpr → PyStmt

/-- A parsed module: `ast.parse` returns a module whose body is a
statement list. -/
abbrev PyModule := List PyStmt

mutual
/-- `ast.unparse` on the embedded expression fragment. -/
def unparse : PyExpr → String
  | PyExpr.name i => i
  | PyExpr.attr v a => unparse v ++ "." ++ a
  | PyExpr.call f args => unparse f ++ "(" ++ unparseList args ++ ")"
  | PyExpr.constant s => s
def unparseList : List PyExpr → String
  | [] => ""
  | [e] => unparse e
  | e :: rest => unparse e ++ ", " ++ unparseList rest
end

mutual
/-- All statement nodes reached by `ast.walk` (every statement at every
nesting depth).  `ast.walk` enumerates breadth-first; the embedding uses a
preorder enumeration of the same node set — none of the verified
properties depend on enumeration order. -/
def stmtNodes : PyStmt → List PyStmt
  | PyStmt.functionDef n a d b => PyStmt.functionDef n a d b :: stmtListNodes b
  | PyStmt.asyncFunctionDef n a d b =>
      PyStmt.asyncFunctionDef n a d b :: stmtListNodes b
  | PyStmt.classDef n bs b => PyStmt.classDef n bs b :: stmtListNodes b
  | s => [s]
def stmtListNodes : List PyStmt → List PyStmt
  | [] => []
  | s :: ss => stmtNodes s ++ stmtListNodes ss
end

mutual
/-- All expression nodes inside one expression (the expression itself and
its subexpressions), as reached by `ast.walk`. -/
def exprNodes : PyExpr → List PyExpr
  | PyExpr.name i => [PyExpr.name i]
  | PyExpr.attr v a => PyExpr.attr v a :: exprNodes v
  | PyExpr.call f args => PyExpr.call f args :: (exprNodes f ++ exprListNodes args)
  | PyExpr.constant s => [PyExpr.constant s]
def exprListNodes : List PyExpr → List PyExpr
  | [] => []
  | e :: es => exprNodes e ++ exprListNodes es
end

mutual
/-- All expression nodes reached by `ast.walk` from a statement list:
decorators, base-class expressions, expression statements and assignments,
recursively through nested bodies. -/
def stmtExprs : PyStmt → List PyExpr
  | PyStmt.importStmt _ => []
  | PyStmt.importFrom _ _ _ => []
  | PyStmt.functionDef _ _ decs b => exprListNodes decs ++ stmtListExprs b
  | PyStmt.asyncFunctionDef _ _ decs b => exprListNodes decs ++ stmtListExprs b
  | PyStmt.classDef _ bases b => exprListNodes bases ++ stmtListExprs b
  | PyStmt.exprStmt e => exprNodes e
  | PyStmt.assign tgts v => exprListNodes tgts ++ exprNodes v
def stmtListExprs : List PyStmt → List PyExpr
  | [] => []
  | s :: ss => stmtExprs s ++ stmtListExprs ss
end

/-! ## Structured Python extractor (seiri/parsers/python.py) -/

/-- `isinstance(node, ast.FunctionDef)`.  In CPython, `ast.AsyncFunctionDef`
is a sibling class of `ast.FunctionDef`, not a subclass, so an async
definition does not satisfy this test. -/
def PyStmt.isFunctionDef : PyStmt → Bool
  | PyStmt.functionDef _ _ _ _ => true
  | _ => false

/-- `isinstance(node, ast.AsyncFunctionDef)`. -/
def PyStmt.isAsyncFunctionDef : PyStmt → Bool
  | PyStmt.asyncFunctionDef _ _ _ _ => true
  | _ => false

/-- `node.name` of a definition node (unused fallback for other nodes). -/
def PyStmt.defName : PyStmt → String
  | PyStmt.functionDef n _ _ _ => n
  | PyStmt.asyncFunctionDef n _ _ _ => n
  | PyStmt.classDef n _ _ => n
  | _ => ""

/-- `[arg.arg for arg in node.args.args]` of a definition node. -/
def PyStmt.defArgs : PyStmt → List String
  | PyStmt.functionDef _ a _ _ => a
  | PyStmt.asyncFunctionDef _ a _ _ => a
  | _ => []

/-- `node.decorator_list` of a definition node. -/
def PyStmt.defDecorators : PyStmt → List PyExpr
  | PyStmt.functionDef _ _ d _ => d
  | PyStmt.asyncFunctionDef _ _ d _ => d
  | _ => []

/-- The decorator loop of `_extract_functions`: an `ast.Name` contributes
its id, an `ast.Attribute` its `ast.unparse` text, and any other decorator
expression falls through both `isinstance` branches and contributes
nothing.  The base-class loop of `_extract_containers` applies the same
rule. -/
def decoratorText : PyExpr → Option String
  | PyExpr.name i => Option.some i
  | PyExpr.attr v a => Option.some (unparse (PyExpr.attr v a))
  | _ => Option.none

/-- `call_name[0].isupper()`; `ast.Name` identifiers are nonempty. -/
def firstIsUpper (s : String) : Bool :=
  match s.data with
  | [] => false
  | c :: _ => c.isUpper

/-- `_extract_imports`, per statement node: `ast.Import` yields one record
per alias with `module=None` and `level=0`; `ast.ImportFrom` yields one
record per alias carrying the statement's module and level. -/
def importsOfStmt : PyStmt → List ImportNode
  | PyStmt.importStmt names =>
    names.map (fun na =>
      { name := na.1, module := Option.none, asname := na.2, level := 0 })
  | PyStmt.importFrom m names lvl =>
    names.map (fun na => { name := na.1, module := m, asname := na.2, level := lvl })
  | _ => []

def extract_imports (m : PyModule) : List ImportNode :=
  (stmtListNodes m).flatMap importsOfStmt

/-- `_extract_functions`, per statement node: guarded by
`isinstance(node, ast.FunctionDef)`; `is_async` is the source expression
`isinstance(node, ast.AsyncFunctionDef)` evaluated on the matched node. -/
def functionsOfStmt (s : PyStmt) : List FunctionNode :=
  if s.isFunctionDef then
    [{ name := s.defName, args := s.defArgs
       decorators := s.defDecorators.filterMap decoratorText
       is_async := s.isAsyncFunctionDef }]
  else []

def extract_functions (m : PyModule) : List FunctionNode :=
  (stmtListNodes m).flatMap functionsOfStmt

/-- `_extract_function_refs`, per `ast.Call` node: a bare call on an
`ast.Name` is classified by `call_name[0].isupper()` into a container
reference (no object/method) or a function reference (no object); a call
on an `ast.Attribute` always becomes a function reference whose object is
the unparsed receiver.  Both output lists are produced by this single pass
(`_extract_container_refs` is a no-op `pass` in the source). -/
def refsOfExpr : PyExpr → List FunctionRefNode × List ContainerRefNode
  | PyExpr.call (PyExpr.name id) _ =>
    if firstIsUpper id then
      ([], [{ name := id, object := Option.none, method := Option.none }])
    else ([{ name := id, object := Option.none }], [])
  | PyExpr.call (PyExpr.attr v a) _ =>
    ([{ name := a, object := Option.some (unparse v) }], [])
  | _ => ([], [])

def extract_function_refs (m : PyModule) : List FunctionRefNode :=
  (stmtListExprs m).flatMap (fun e => (refsOfExpr e).1)

def extract_container_refs (m : PyModule) : List ContainerRefNode :=
  (stmtListExprs m).flatMap (fun e => (refsOfExpr e).2)

/-- The class-level-variable loop of `_extract_containers`: direct
`ast.Assign` items of the class body contribute their `ast.Name` targets. -/
def assignTargetNames : PyStmt → List String
  | PyStmt.assign tgts _ =>
    tgts.filterMap (fun t =>
      match t with
      | PyExpr.name i => Option.some i
      | _ => Option.none)
  | _ => []

/-- `_extract_containers`, per statement node. -/
def containersOfStmt : PyStmt → List ContainerNode
  | PyStmt.classDef n bases body =>
    [{ name := n, bases := bases.filterMap decoratorText
       container_vars := body.flatMap assignTargetNames }]
  | _ => []

def extract_containers (m : PyModule) : List ContainerNode :=
  (stmtListNodes m).flatMap containersOfStmt

/-! ## parse_file models

The file system is a partial map from path to byte content; existing
content either decodes to text or raises `UnicodeDecodeError` on read
(`FileBytes.undecodable`).  `ast.parse` is an oracle parameter: a source
string either parses to a module or raises a syntax error. -/

inductive FileBytes where
  | text : String → FileBytes
  | undecodable : FileBytes

abbrev FS := String → Option FileBytes

inductive ParseErr where
  | fileNotFound : ParseErr
  | syntaxError : ParseErr
deriving DecidableEq

/-- The `ParsedFile` assembled by `PythonParser.parse_file` after a
successful read and `ast.parse`: the five extraction passes over the tree. -/
def python_parsed (p : String) (m : PyModule) : ParsedFile :=
  { language := "python", path := p
    imports := extract_imports m
    functions := extract_functions m
    function_refs := extract_function_refs m
    containers := extract_containers m
    container_refs := extract_container_refs m }

/-- `PythonParser.parse_file`: a nonexistent path raises
`FileNotFoundError`; a `UnicodeDecodeError` on read returns the sentinel
`ParsedFile("error", path)`; otherwise `ast.parse` runs (its failure
propagates) and the extractors fill the record. -/
def python_parse_file (pyParse : String → Option PyModule) (fs : FS)
    (p : String) : Except ParseErr ParsedFile :=
  match fs p with
  | Option.none => Except.error ParseErr.fileNotFound
  | Option.some FileBytes.undecodable =>
    Except.ok { language := "error", path := p }
  | Option.some (FileBytes.text src) =>
    match pyParse src with
    | Option.none => Except.error ParseErr.syntaxError
    | Option.some m => Except.ok (python_parsed p m)

/-! ## Pattern-based Rust extractor (seiri/parsers/rust.py)

`re.findall` for the four concrete patterns of the source, implemented as
total scanners over the character list: try a match at each position, and
on success continue after the match (non-overlapping, left to right). -/

/-- Python `\s` (ASCII range). -/
def isPySpace (c : Char) : Bool :=
  c = ' ' || c = '\t' || c = '\n' || c = '\r' ||
  c = Char.ofNat 11 || c = Char.ofNat 12

/-- Python `\w` (ASCII range). -/
def isWordChar (c : Char) : Bool :=
  c.isAlphanum || c = '_'

/-- Tail of `use\s+([^;]+);` after the literal `use`: at least one
whitespace, then the capture up to the terminating `;`.  When everything
before the `;` is whitespace, `\s+` backtracks one character and the
capture is that single whitespace character (needs at least two). -/
def useCaptureAt (cs : List Char) : Option (String × List Char) :=
  let ws := cs.takeWhile isPySpace
  let rest := cs.dropWhile isPySpace
  if ws.length = 0 then Option.none
  else
    let body := rest.takeWhile (fun c => c ≠ ';')
    match rest.drop body.length with
    | ';' :: after =>
      if body.length ≥ 1 then Option.some (String.mk body, after)
      else if ws.length ≥ 2 then Option.some (String.mk [ws.getLastD ' '], after)
      else Option.none
    | _ => Option.none

/-- Tail of `struct\s+(\w+)` / `impl\s+(\w+)` after the keyword: at least
one whitespace, then the captured word; the match ends with the word. -/
def wordCaptureAt (cs : List Char) : Option (String × List Char) :=
  let ws := cs.takeWhile isPySpace
  let rest := cs.dropWhile isPySpace
  if ws.length = 0 then Option.none
  else
    let w := rest.takeWhile isWordChar
    if w.length = 0 then Option.none
    else Option.some (String.mk w, rest.drop w.length)

/-- Tail of `fn\s+(\w+)\s*\(` after `fn`: a word capture followed by
optional whitespace and an opening parenthesis. -/
def fnTailAt (cs : List Char) : Option (String × List Char) :=
  match wordCaptureAt cs with
  | Option.some (w, rest) =>
    match rest.dropWhile isPySpace with
    | '(' :: after => Option.some (w, after)
    | _ => Option.none
  | Option.none => Option.none

/-- Generic left-to-right scan: at each position, if the keyword occurs
there and the tail matcher succeeds on the remainder, record the capture
and resume after the match; otherwise advance one character.  Fuel is the
string length (every recursive call is on a strictly shorter list). -/
def scanPat (tail : List Char → Option (String × List Char))
    (kw : List Char) : Nat → List Char → List String
  | _, [] => []
  | 0, _ => []
  | Nat.succ fuel, c :: cs =>
    if (c :: cs).take kw.length = kw then
      match tail ((c :: cs).drop kw.length) with
      | Option.some (cap, after) => cap :: scanPat tail kw fuel after
      | Option.none => scanPat tail kw fuel cs
    else scanPat tail kw fuel cs

def findall_use (s : String) : List String :=
  scanPat useCaptureAt "use".data s.length s.data

def findall_fn (s : String) : List String :=
  scanPat fnTailAt "fn".data s.length s.data

def findall_struct (s : String) : List String :=
  scanPat wordCaptureAt "struct".data s.length s.data

def findall_impl (s : String) : List String :=
  scanPat wordCaptureAt "impl".data s.length s.data

/-- `RustParser._extract_imports`: one record per `use` match, the whole
clause as `name`, no module/alias, level 0. -/
def rust_extract_imports (data : String) : List ImportNode :=
  (findall_use data).map (fun stmt =>
    { name := stmt, module := Option.none, asname := Option.none, level := 0 })

/-- `RustParser._extract_functions`. -/
def rust_extract_functions (data : String) : List FunctionNode :=
  (findall_fn data).map (fun n =>
    { name := n, args := [], decorators := [], is_async := false })

/-- `RustParser._extract_containers`: all `struct` matches, then all
`impl` matches. -/
def rust_extract_containers (data : String) : List ContainerNode :=
  (findall_struct data).map (fun n =>
    { name := n, bases := [], container_vars := [] })
  ++ (findall_impl data).map (fun n =>
    { name := n, bases := [], container_vars := [] })

/-- The `ParsedFile` assembled by `RustParser.parse_file` after a
successful read.  The calls to `_extract_function_refs` and
`_extract_container_refs` are commented out in the source, so those two
sequences keep their empty defaults. -/
def rust_parsed (p : String) (data : String) : ParsedFile :=
  { language := "rust", path := p
    imports := rust_extract_imports data
    functions := rust_extract_functions data
    containers := rust_extract_containers data }

/-- `RustParser.parse_file`. -/
def rust_parse_file (fs : FS) (p : String) : Except ParseErr ParsedFile :=
  match fs p with
  | Option.none => Except.error ParseErr.fileNotFound
  | Option.some FileBytes.undecodable =>
    Except.ok { language := "error", path := p }
  | Option.some (FileBytes.text data) => Except.ok (rust_parsed p data)

/-! ## Parser registry (seiri/parsers/utils/registry.py)

`self._parsers` is a dict from language key to parser class; assignment
overwrites, `.get` returns the value or `None`.  The dict is embedded as
an association list where later assignments are prepended and lookup takes
the first match. -/

structure ParserRegistry (P : Type) where
  parsers : List (String × P)

/-- `dict.get(key)`. -/
def dictGet {P : Type} : List (String × P) → String → Option P
  | [], _ => Option.none
  | (k, v) :: rest, key => if k = key then Option.some v else dictGet rest key

/-- `register_parser`: `self._parsers[language] = parser_class`. -/
def ParserRegistry.register {P : Type} (r : ParserRegistry P) (language : String)
    (p : P) : ParserRegistry P :=
  { parsers := (language, p) :: r.parsers }

/-- `get_parser`: `self._parsers.get(language)`. -/
def ParserRegistry.get {P : Type} (r : ParserRegistry P) (language : String) :
    Option P :=
  dictGet r.parsers language

/-- `__init__` + `_load_builtin_parsers`: an empty dict populated with the
three built-in parsers. -/
def initRegistry {P : Type} (py js rs : P) : ParserRegistry P :=
  (((ParserRegistry.mk []).register "python" py).register
    "javascript" js).register "rust" rs

/-! ## Theorems -/

/-- Every edge emitted by `build_graph` carries a string-or-None target
(`imp.module` / `call.object`), never an `ImportNode` instance. -/
lemma edgesOf_target_ofOpt (pf : ParsedFile) (e : GraphEdge)
    (he : e ∈ edgesOf pf) : ∃ o, e.target = PyVal.ofOpt o := by
  unfold edgesOf at he
  rcases List.mem_append.mp he with h | h <;>
    rcases List.mem_map.mp h with ⟨x, _, rfl⟩ <;> exact ⟨_, rfl⟩

/-- `_find_external_dependencies` leaves its accumulator untouched on any
edge whose target is not an `ImportNode` instance. -/
lemma find_external_eq_nil (rs : List ParsedFile) (es : List GraphEdge)
    (h : ∀ e ∈ es, ∃ o, e.target = PyVal.ofOpt o) :
    find_external_dependencies rs es = [] := by
  unfold find_external_dependencies
  induction es with
  | nil => rfl
  | cons e es ih =>
    have he := h e (List.mem_cons_self e es)
    have hstep : ∀ acc : List String,
        (match e.target with
         | PyVal.importNodeV t =>
           match t.module with
           | Option.some m =>
             if m ∈ rs.map (fun f => f.path) then acc
             else if m ∈ acc then acc else acc ++ [m]
           | Option.none => acc
         | _ => acc) = acc := by
      intro acc
      rcases he with ⟨o, ho⟩
      rw [ho]
      cases o <;> rfl
    simp only [List.foldl_cons, hstep]
    exact ih (fun x hx => h x (List.mem_cons_of_mem e hx))

/-- On the edges that `build_graph` itself assembles, the external
dependency collector always returns the empty list. -/
lemma build_graph_external_nil (rs : List ParsedFile) :
    find_external_dependencies rs (rs.flatMap edgesOf) = [] := by
  refine find_external_eq_nil rs _ (fun e he => ?_)
  rcases List.mem_flatMap.mp he with ⟨pf, _, hmem⟩
  exact edgesOf_target_ofOpt pf e hmem

/-- C1: the claim says a plain `import numpy` in file `a.py` yields the
edge `a.py → "numpy"` of kind import.  Evaluating `build_graph` on the record the
Python extractor produces for that file shows the single emitted edge has
target `None` (the builder writes `imp.module`, which a plain import
leaves unset), not `"numpy"`. -/
theorem C1_plain_import_edge_target_is_none :
    (build_graph [python_parsed "a.py"
        [PyStmt.importStmt [("numpy", Option.none)]]]).edges
      = [{ source := "a.py", target := PyVal.nil, type := "import", weight := 1 }] := by
  rfl

/-- C2: the claim says an edge target that matches no file node id forces
exactly one external node.  Evaluating `build_graph` on a single file
whose one edge targets the non-file string `"numpy"` (from
`from numpy import array`) shows the graph has that edge, no external
node, and exactly one node in total: `_find_external_dependencies`
requires `isinstance(target, ImportNode)` although every target it sees is
a string or `None`, so it never collects anything. -/
theorem C2_no_external_node_for_nonfile_target :
    (build_graph [python_parsed "a.py"
        [PyStmt.importFrom (Option.some "numpy") [("array", Option.none)] 0]]).edges
      = [{ source := "a.py", target := PyVal.str "numpy", type := "import", weight := 1 }]
    ∧ (build_graph [python_parsed "a.py"
        [PyStmt.importFrom (Option.some "numpy") [("array", Option.none)] 0]]).nodes.filter
          (fun n => n.type == "external") = []
    ∧ (build_graph [python_parsed "a.py"
        [PyStmt.importFrom (Option.some "numpy") [("array", Option.none)] 0]]).nodes.length
      = 1 :=
  ⟨rfl, rfl, rfl⟩

/-- C4: the claim says a FunctionReference without a receiver contributes
no edge.  Evaluating `build_graph` on the record for a file containing the
bare call `foo()` shows a `"call"` edge is emitted anyway, with target
`None` (the guard `if call:` tests dataclass truthiness and never
filters). -/
theorem C4_bare_call_still_produces_edge :
    (build_graph [python_parsed "a.py"
        [PyStmt.exprStmt (PyExpr.call (PyExpr.name "foo") [])]]).edges
      = [{ source := "a.py", target := PyVal.nil, type := "call", weight := 1 }] := by
  rfl

/-- C5: the claim says every function definition, async included, yields
exactly one FunctionRecord with `isAsync` set for async definitions.
Evaluating the extractor shows an `async def` yields no record at all
(`ast.AsyncFunctionDef` does not satisfy the
`isinstance(node, ast.FunctionDef)` guard), while the same synchronous
definition yields one record with `is_async = false`. -/
theorem C5_async_def_emits_no_record :
    extract_functions [PyStmt.asyncFunctionDef "f" ["x"] [] []] = []
    ∧ extract_functions [PyStmt.functionDef "f" ["x"] [] []]
      = [{ name := "f", args := ["x"], decorators := [], is_async := false }] :=
  ⟨rfl, rfl⟩

/-- C7: `build_graph` emits exactly one `"file"` node per input record, in
input order, with id the record's path, its language, a display name, and
the five sequence counts as metadata; the graph metadata carries the
record count and the distinct language set. -/
theorem C7_file_nodes_and_metadata (rs : List ParsedFile) :
    (build_graph rs).nodes.filter (fun n => n.type == "file")
      = rs.map (fun pf =>
          { id := pf.path, type := "file", language := Option.some pf.language
            name := pathName pf.path
            metadata := [("import_count", pf.imports.length),
                         ("function_count", pf.functions.length),
                         ("function_ref_count", pf.function_refs.length),
                         ("container_count", pf.containers.length),
                         ("container_ref_count", pf.container_refs.length)] })
    ∧ (build_graph rs).metadata.total_files = rs.length
    ∧ (build_graph rs).metadata.languages.Nodup
    ∧ (∀ l, l ∈ (build_graph rs).metadata.languages ↔
        l ∈ rs.map (fun r => r.language)) := by
  have hnodes : (build_graph rs).nodes = rs.map fileNodeOf := by
    simp only [build_graph, build_graph_external_nil rs, List.map_nil,
      List.append_nil]
  refine ⟨?_, rfl, List.nodup_dedup _, fun l => List.mem_dedup⟩
  rw [hnodes]
  have hall : ∀ n ∈ rs.map fileNodeOf, (n.type == "file") = true := by
    intro n hn
    rcases List.mem_map.mp hn with ⟨pf, _, rfl⟩
    rfl
  rw [List.filter_eq_self.mpr hall]
  rfl

/-- C3: call-site classification of the structured extractor — a bare call
on an uppercase-initial name becomes a ContainerReference with no
receiver/member; a bare call on any other name becomes a FunctionReference
with no receiver; a member call always becomes a FunctionReference whose
receiver is the rendered receiver expression; a member call contributes no
container reference whatever the capitalization of the receiver or the
attribute (its per-node container output is empty); and no container
reference ever carries a receiver or member. -/
theorem C3_call_classification (m : PyModule) :
    (∀ id args, PyExpr.call (PyExpr.name id) args ∈ stmtListExprs m →
      (firstIsUpper id = true →
        ({ name := id, object := Option.none, method := Option.none } :
          ContainerRefNode) ∈ extract_container_refs m)
      ∧ (firstIsUpper id = false →
        ({ name := id, object := Option.none } : FunctionRefNode)
          ∈ extract_function_refs m))
    ∧ (∀ v a args, PyExpr.call (PyExpr.attr v a) args ∈ stmtListExprs m →
      ({ name := a, object := Option.some (unparse v) } : FunctionRefNode)
        ∈ extract_function_refs m)
    ∧ (∀ v a args, (refsOfExpr (PyExpr.call (PyExpr.attr v a) args)).2 = [])
    ∧ (∀ c ∈ extract_container_refs m,
        c.object = Option.none ∧ c.method = Option.none
          ∧ firstIsUpper c.name = true) := by
  refine ⟨fun id args hmem => ⟨fun hup => ?_, fun hlow => ?_⟩,
    fun v a args hmem => ?_, fun v a args => rfl, fun c hc => ?_⟩
  · exact List.mem_flatMap.mpr ⟨_, hmem, by simp [refsOfExpr, hup]⟩
  · exact List.mem_flatMap.mpr ⟨_, hmem, by simp [refsOfExpr, hlow]⟩
  · exact List.mem_flatMap.mpr ⟨_, hmem, by simp [refsOfExpr]⟩
  · rcases List.mem_flatMap.mp hc with ⟨e, _, hce⟩
    cases e with
    | name i => simp [refsOfExpr] at hce
    | attr v a => simp [refsOfExpr] at hce
    | constant s => simp [refsOfExpr] at hce
    | call f args =>
      cases f with
      | name id =>
        by_cases hup : firstIsUpper id = true
        · simp [refsOfExpr, hup] at hce
          subst hce
          exact ⟨rfl, rfl, hup⟩
        · simp [refsOfExpr, hup] at hce
      | attr v a => simp [refsOfExpr] at hce
      | call g as2 => simp [refsOfExpr] at hce
      | constant s => simp [refsOfExpr] at hce

/-- Witness for C3, on a module containing `Foo()` and `obj.bar()`. -/
theorem C3_call_classification_witness :
    ({ name := "Foo", object := Option.none, method := Option.none } :
      ContainerRefNode)
      ∈ extract_container_refs
          [PyStmt.exprStmt (PyExpr.call (PyExpr.name "Foo") []),
           PyStmt.exprStmt
             (PyExpr.call (PyExpr.attr (PyExpr.name "obj") "bar") [])]
    ∧ ({ name := "bar", object := Option.some "obj" } : FunctionRefNode)
      ∈ extract_function_refs
          [PyStmt.exprStmt (PyExpr.call (PyExpr.name "Foo") []),
           PyStmt.exprStmt
             (PyExpr.call (PyExpr.attr (PyExpr.name "obj") "bar") [])]
    ∧ (refsOfExpr (PyExpr.call (PyExpr.attr (PyExpr.name "obj") "Bar") [])).2
      = [] := by
  refine ⟨?_, ?_, ?_⟩
  · exact ((C3_call_classification _).1 "Foo" []
      (List.mem_cons_self _ _)).1 rfl
  · exact (C3_call_classification _).2.1 (PyExpr.name "obj") "bar" []
      (List.mem_cons_of_mem _ (List.mem_cons_of_mem _ (List.mem_cons_self _ _)))
  · exact (C3_call_classification []).2.2.1 (PyExpr.name "obj") "Bar" []

/-- C6: for both extractors, `parse_file` signals `FileNotFound` exactly
when the path does not exist; a decode failure on an existing file is not
an error but the sentinel record with `language = "error"` and all five
sequences empty; and every returned record with `language = "error"` has
all five sequences empty. -/
theorem C6_parse_file_error_policy (pyParse : String → Option PyModule)
    (fs : FS) (p : String) :
    (python_parse_file pyParse fs p = Except.error ParseErr.fileNotFound ↔
      fs p = Option.none)
    ∧ (rust_parse_file fs p = Except.error ParseErr.fileNotFound ↔
      fs p = Option.none)
    ∧ (fs p = Option.some FileBytes.undecodable →
        python_parse_file pyParse fs p
            = Except.ok { language := "error", path := p }
        ∧ rust_parse_file fs p = Except.ok { language := "error", path := p })
    ∧ (∀ pf, python_parse_file pyParse fs p = Except.ok pf →
        pf.language = "error" →
        pf.imports = [] ∧ pf.functions = [] ∧ pf.function_refs = []
          ∧ pf.containers = [] ∧ pf.container_refs = [])
    ∧ (∀ pf, rust_parse_file fs p = Except.ok pf → pf.language = "error" →
        pf.imports = [] ∧ pf.functions = [] ∧ pf.function_refs = []
          ∧ pf.containers = [] ∧ pf.container_refs = []) := by
  cases hfs : fs p with
  | none =>
    refine ⟨by simp [python_parse_file, hfs], by simp [rust_parse_file, hfs],
      by simp [hfs], fun pf hok => ?_, fun pf hok => ?_⟩ <;>
      simp [python_parse_file, rust_parse_file, hfs] at hok
  | some bytes =>
    cases bytes with
    | undecodable =>
      refine ⟨by simp [python_parse_file, hfs], by simp [rust_parse_file, hfs],
        fun _ => ⟨by simp [python_parse_file, hfs], by simp [rust_parse_file, hfs]⟩,
        fun pf hok hlang => ?_, fun pf hok hlang => ?_⟩ <;>
      · simp [python_parse_file, rust_parse_file, hfs] at hok
        subst hok
        exact ⟨rfl, rfl, rfl, rfl, rfl⟩
    | text src =>
      refine ⟨?_, by simp [rust_parse_file, hfs], by simp [hfs],
        fun pf hok hlang => ?_, fun pf hok hlang => ?_⟩
      · cases hpy : pyParse src <;>
          simp [python_parse_file, hfs, hpy]
      · cases hpy : pyParse src with
        | none => simp [python_parse_file, hfs, hpy] at hok
        | some m =>
          simp [python_parse_file, hfs, hpy] at hok
          subst hok
          exact absurd hlang (by simp [python_parsed])
      · simp [rust_parse_file, hfs] at hok
        subst hok
        exact absurd hlang (by simp [rust_parsed])

/-- Witness for C6: an undecodable existing file yields the sentinel, a
missing path yields `FileNotFound`. -/
theorem C6_parse_file_error_policy_witness :
    python_parse_file (fun _ => Option.none)
        (fun q => if q = "a.py" then Option.some FileBytes.undecodable
          else Option.none) "a.py"
      = Except.ok { language := "error", path := "a.py" }
    ∧ rust_parse_file
        (fun q => if q = "a.py" then Option.some FileBytes.undecodable
          else Option.none) "missing.rs"
      = Except.error ParseErr.fileNotFound := by
  constructor
  · exact ((C6_parse_file_error_policy (fun _ => Option.none) _ "a.py").2.2.1
      (by simp)).1
  · exact (C6_parse_file_error_policy (fun _ => Option.none) _
      "missing.rs").2.1.mpr (by simp)

/-- C8: whenever the file exists and decodes, the pattern-based Rust
extractor returns a record (it never raises, however malformed the text),
its call-reference sequences are empty, and a category without a pattern
match is just an empty sequence. -/
theorem C8_rust_never_populates_call_refs (fs : FS) (p s : String)
    (h : fs p = Option.some (FileBytes.text s)) :
    rust_parse_file fs p = Except.ok (rust_parsed p s)
    ∧ (rust_parsed p s).function_refs = []
    ∧ (rust_parsed p s).container_refs = []
    ∧ (findall_use s = [] → (rust_parsed p s).imports = [])
    ∧ (findall_fn s = [] → (rust_parsed p s).functions = [])
    ∧ (findall_struct s = [] → findall_impl s = [] →
        (rust_parsed p s).containers = []) := by
  refine ⟨by simp [rust_parse_file, h], rfl, rfl,
    fun h1 => ?_, fun h1 => ?_, fun h1 h2 => ?_⟩
  · simp [rust_parsed, rust_extract_imports, h1]
  · simp [rust_parsed, rust_extract_functions, h1]
  · simp [rust_parsed, rust_extract_containers, h1, h2]

/-- Witness for C8, on malformed partial Rust text. -/
theorem C8_rust_never_populates_call_refs_witness :
    rust_parse_file
        (fun q => if q = "m.rs"
          then Option.some (FileBytes.text "fn ( use ;; struct")
          else Option.none) "m.rs"
      = Except.ok (rust_parsed "m.rs" "fn ( use ;; struct")
    ∧ (rust_parsed "m.rs" "fn ( use ;; struct").function_refs = []
    ∧ (rust_parsed "m.rs" "fn ( use ;; struct").container_refs = [] := by
  have h := C8_rust_never_populates_call_refs
    (fun q => if q = "m.rs"
      then Option.some (FileBytes.text "fn ( use ;; struct")
      else Option.none) "m.rs" "fn ( use ;; struct" (by simp)
  exact ⟨h.1, h.2.1, h.2.2.1⟩

/-- Looking a key up in a dict none of whose entries carry that key yields
`None`. -/
lemma dictGet_eq_none {P : Type} (l : List (String × P)) (k : String)
    (hk : ∀ e ∈ l, e.1 ≠ k) : dictGet l k = Option.none := by
  induction l with
  | nil => rfl
  | cons e rest ih =>
    obtain ⟨k1, v1⟩ := e
    have h1 : k1 ≠ k := hk (k1, v1) (List.mem_cons_self _ _)
    simp only [dictGet, if_neg h1]
    exact ih (fun x hx => hk x (List.mem_cons_of_mem _ hx))

/-- C9: a lookup immediately after registering an implementation under a
key returns exactly that implementation; a lookup of a key that was never
registered — in particular a non-builtin key on the freshly initialized
registry — returns the absent value, never an error or a fresh
construction. -/
theorem C9_registry_lookup {P : Type} (r : ParserRegistry P)
    (lang k : String) (p : P) :
    (ParserRegistry.get (ParserRegistry.register r lang p) lang
      = Option.some p)
    ∧ ((∀ e ∈ r.parsers, e.1 ≠ k) → ParserRegistry.get r k = Option.none)
    ∧ (∀ py js rs : P, k ≠ "python" → k ≠ "javascript" → k ≠ "rust" →
        ParserRegistry.get (initRegistry py js rs) k = Option.none) := by
  refine ⟨by simp [ParserRegistry.get, ParserRegistry.register, dictGet],
    fun hk => dictGet_eq_none r.parsers k hk, fun py js rs hp hj hr => ?_⟩
  simp only [initRegistry, ParserRegistry.register, ParserRegistry.get, dictGet]
  rw [if_neg (fun h => hr h.symm), if_neg (fun h => hj h.symm),
    if_neg (fun h => hp h.symm)]

/-- Witness for C9, with numeric stand-ins for the parser classes. -/
theorem C9_registry_lookup_witness :
    ParserRegistry.get
        (ParserRegistry.register (initRegistry 1 2 3) "go" 7) "go"
      = Option.some 7
    ∧ ParserRegistry.get (initRegistry 1 2 3) "haskell" = Option.none := by
  refine ⟨(C9_registry_lookup (initRegistry 1 2 3) "go" "haskell" 7).1, ?_⟩
  exact (C9_registry_lookup (initRegistry 1 2 3) "go" "haskell" 7).2.2 1 2 3
    (by decide) (by decide) (by decide)

/-- C10: a decorator that is neither an `ast.Name` nor an `ast.Attribute`
(for example a decorator call) contributes no entry to the emitted
record's decorator list — it is silently dropped, with the remaining
decorators kept. -/
theorem C10_other_decorator_forms_dropped (d : PyExpr) (ds1 ds2 : List PyExpr)
    (h1 : ∀ i, d ≠ PyExpr.name i) (h2 : ∀ v a, d ≠ PyExpr.attr v a) :
    decoratorText d = Option.none
    ∧ ∀ n args, extract_functions [PyStmt.functionDef n args (ds1 ++ d :: ds2) []]
        = [{ name := n, args := args
             decorators := (ds1 ++ ds2).filterMap decoratorText
             is_async := false }] := by
  have hd : decoratorText d = Option.none := by
    cases d with
    | name i => exact absurd rfl (h1 i)
    | attr v a => exact absurd rfl (h2 v a)
    | call f args => rfl
    | constant s => rfl
  refine ⟨hd, fun n args => ?_⟩
  simp [extract_functions, stmtListNodes, stmtNodes, functionsOfStmt,
    PyStmt.isFunctionDef, PyStmt.isAsyncFunctionDef, PyStmt.defName,
    PyStmt.defArgs, PyStmt.defDecorators, List.filterMap_append,
    List.filterMap_cons, hd]

/-- Witness for C10, with the decorator call `@app.route()`. -/
theorem C10_other_decorator_forms_dropped_witness :
    decoratorText (PyExpr.call (PyExpr.attr (PyExpr.name "app") "route") [])
      = Option.none
    ∧ extract_functions [PyStmt.functionDef "index" []
        [PyExpr.call (PyExpr.attr (PyExpr.name "app") "route") []] []]
      = [{ name := "index", args := [], decorators := [], is_async := false }] := by
  have h := C10_other_decorator_forms_dropped
    (PyExpr.call (PyExpr.attr (PyExpr.name "app") "route") []) [] []
    (fun i hcontra => PyExpr.noConfusion hcontra)
    (fun v a hcontra => PyExpr.noConfusion hcontra)
  exact ⟨h.1, h.2 "index" []⟩

end Seiri
